import Mathlib

/-!
Verification development for the business-directory harvesting script
(single source file `T.py`).

The network and HTML-parse boundaries are modelled as inputs: a fetched page
is represented by the already-parsed per-listing data (`Listing`,
`YelpListing`), with `none` standing for a failed fetch (`fetch_page`
returning `None`).  All pure logic of the script — text cleaning, email
extraction, per-listing record assembly, the accumulation loops with their
quota break, deduplication, quota truncation, shortfall markers and the
region loop — is translated function by function below.
-/

/-! ## Text helpers (`clean_text`, lines 153-157) -/

/-- Whitespace class of the Python regex `\s` and of `str.strip`
(space, tab, newline, carriage return, vertical tab, form feed). -/
def wsChar (c : Char) : Bool :=
  c == ' ' || c == '\t' || c == '\n' || c == '\r' || c == '\x0b' || c == '\x0c'

/-- Model of `text.strip()`: drop whitespace from both ends. -/
def trimChars (cs : List Char) : List Char :=
  ((cs.dropWhile wsChar).reverse.dropWhile wsChar).reverse

/-- Replace each maximal whitespace run by a single space, as the
substitution `re.sub(r"\s+", " ", -)` does. -/
def collapseWS : List Char → List Char
  | [] => []
  | [c] => [if wsChar c then ' ' else c]
  | a :: b :: rest =>
    if wsChar a && wsChar b then collapseWS (b :: rest)
    else (if wsChar a then ' ' else a) :: collapseWS (b :: rest)

/-- Lines 153-157: `clean_text` strips the ends and collapses inner
whitespace runs; falsy input (the empty string) yields the empty string. -/
def clean_text (text : String) : String :=
  if text = "" then ("") else String.mk (collapseWS (trimChars text.data))

/-! ## Email extraction (`extract_email_from_text`, lines 118-133)

The first regex is `[A-Za-z0-9._%+-]+@[A-Za-z0-9.-]+\.[A-Za-z]{2,}`;
the second is the same pattern behind a (case-insensitive) `mailto:`
literal, capturing the address.  `re.findall` scans left to right, and
only the first match is used, so the model computes the leftmost match
under the greedy/backtracking semantics of the pattern. -/

/-- Character class `[A-Za-z0-9._%+-]` of the local part. -/
def isLocalChar (c : Char) : Bool :=
  c.isAlpha || c.isDigit || c == '.' || c == '_' || c == '%' || c == '+' || c == '-'

/-- Character class `[A-Za-z0-9.-]` of the domain part. -/
def isDomainChar (c : Char) : Bool :=
  c.isAlpha || c.isDigit || c == '.' || c == '-'

/-- Does position `m` of the maximal domain-character run carry a dot
followed by an alphabetic run of length at least two (the `\.[A-Za-z]{2,}`
tail of the pattern)? -/
def dotOK (d : List Char) (m : Nat) : Bool :=
  (d.get? m == some '.') && decide (2 ≤ ((d.drop (m + 1)).takeWhile Char.isAlpha).length)

/-- Greedy backtracking for the `[A-Za-z0-9.-]+\.` part: the largest
dot position in the domain run whose tail completes the pattern. -/
def findDotFrom (d : List Char) : Nat → Option Nat
  | 0 => if dotOK d 0 then some 0 else none
  | m + 1 => if dotOK d (m + 1) then some (m + 1) else findDotFrom d m

/-- Match the email pattern anchored at the head of `cs`, returning the
matched characters.  The local-part run must be non-empty and be followed
immediately by `@`; the domain is the maximal domain-character run,
backtracked to the last dot that leaves an alphabetic tail of length ≥ 2. -/
def matchEmailAt (cs : List Char) : Option (List Char) :=
  let lp := cs.takeWhile isLocalChar
  if lp.length = 0 then none
  else
    match cs.drop lp.length with
    | '@' :: rest =>
      let d := rest.takeWhile isDomainChar
      match findDotFrom d (d.length - 1) with
      | some m =>
        some (lp ++ '@' :: (d.take (m + 1) ++ (d.drop (m + 1)).takeWhile Char.isAlpha))
      | none => none
    | _ => none

/-- Leftmost match of the email pattern: try each start position from the
left, as the regex scan does. -/
def findEmail : List Char → Option (List Char)
  | [] => none
  | c :: rest =>
    match matchEmailAt (c :: rest) with
    | some s => some s
    | none => findEmail rest

/-- ASCII lowering of a character list (the effect of `str.lower` /
`re.IGNORECASE` on the ASCII strings handled here). -/
def lowerChars (cs : List Char) : List Char := cs.map Char.toLower

/-- Match the second pattern at the head of `cs`: the literal `mailto:`
(case-insensitive) followed by an email match; the captured group is the
email part alone. -/
def matchMailtoAt (cs : List Char) : Option (List Char) :=
  if lowerChars (cs.take 7) = 'm' :: 'a' :: 'i' :: 'l' :: 't' :: 'o' :: ':' :: [] then
    matchEmailAt (cs.drop 7)
  else none

/-- Leftmost match of the `mailto:` pattern. -/
def findMailto : List Char → Option (List Char)
  | [] => none
  | c :: rest =>
    match matchMailtoAt (c :: rest) with
    | some s => some s
    | none => findMailto rest

/-- Lines 118-133: `extract_email_from_text`.  Falsy (empty) text yields
`None`; otherwise the first match of the plain pattern, else the first
captured group of the `mailto:` pattern, else `None`. -/
def extract_email_from_text (text : String) : Option String :=
  if text = "" then none
  else
    match findEmail text.data with
    | some cs => some (String.mk cs)
    | none =>
      match findMailto text.data with
      | some cs => some (String.mk cs)
      | none => none

/-! ## Records and listings -/

/-- Python truthiness of an optional string (`None` and `""` are falsy). -/
def truthy : Option String → Bool
  | none => false
  | some s => s != ""

/-- One output row: the dict built at lines 220-227 / 301-308 / 376-383
and the marker row of lines 447-454, with keys Business Name, Email,
Phone, Website, Address, Category. -/
structure Business where
  name : String
  email : String
  phone : String
  website : String
  address : String
  category : String
deriving DecidableEq

/-- One YellowPages listing as seen by the extractor after the
BeautifulSoup selectors ran (the parse boundary): each `*Text` field is
the text of the corresponding element when present, `website` is the
href of the website element, `listingText` is `listing.get_text()`, and
`siteHtml` is the result of fetching that website (`none` = fetch
failure). -/
structure Listing where
  nameText : Option String
  phoneText : Option String
  website : Option String
  addressText : Option String
  listingText : String
  siteHtml : Option String
deriving DecidableEq

/-- One Yelp search-result card plus the data found on its business page:
`href` is the link on the name element, `bizHtml` the fetched business
page (`none` = fetch failure or page falsy), and the remaining fields the
phone, website and address elements found on that page. -/
structure YelpListing where
  nameText : Option String
  href : Option String
  bizHtml : Option String
  phoneText : Option String
  websiteHref : Option String
  addressText : Option String
deriving DecidableEq

/-! ## Per-listing extraction -/

/-- Lines 180-227 (and the line-for-line identical lines 262-308 of the
Canadian variant): process one YellowPages listing.  Name missing or
cleaning to empty skips the listing; the linked website, when truthy, is
fetched and searched for an email; the listing text is searched only when
that produced nothing truthy; a falsy final email skips the listing. -/
def processListing (category : String) (l : Listing) : Option Business :=
  match l.nameText with
  | none => none
  | some nt =>
    let business_name := clean_text nt
    if business_name = "" then none
    else
      let emailFromSite : Option String :=
        if truthy l.website then
          match l.siteHtml with
          | some h => extract_email_from_text h
          | none => none
        else none
      let email : Option String :=
        if truthy emailFromSite then emailFromSite
        else extract_email_from_text l.listingText
      match email with
      | none => none
      | some e =>
        if e = "" then none
        else
          some { name := business_name
                 email := e
                 phone := (l.phoneText.map clean_text).getD ("")
                 website := l.website.getD ("")
                 address := (l.addressText.map clean_text).getD ("")
                 category := category }

/-- Lines 339-383: process one Yelp card.  Name missing or empty skips;
a falsy business link, a failed business-page fetch, or a falsy email on
the business page all skip (there is no listing-text fallback on Yelp). -/
def processYelpListing (category : String) (l : YelpListing) : Option Business :=
  match l.nameText with
  | none => none
  | some nt =>
    let business_name := clean_text nt
    if business_name = "" then none
    else
      if truthy l.href then
        match l.bizHtml with
        | none => none
        | some html =>
          match extract_email_from_text html with
          | none => none
          | some e =>
            if e = "" then none
            else
              some { name := business_name
                     email := e
                     phone := (l.phoneText.map clean_text).getD ("")
                     website := l.websiteHref.getD ("")
                     address := (l.addressText.map clean_text).getD ("")
                     category := category }
      else none

/-- The accumulation loop shared by all three extractors: walk the
listings, append each successfully processed record, and break as soon as
the accumulator reaches 10 records (`if len(businesses) >= 10: break`). -/
def collectLoop {α : Type} (f : α → Option Business) : List α → List Business → List Business
  | [], acc => acc
  | x :: rest, acc =>
    match f x with
    | none => collectLoop f rest acc
    | some b =>
      if 10 ≤ (acc ++ [b]).length then acc ++ [b]
      else collectLoop f rest (acc ++ [b])

/-- Lines 159-239: `scrape_yellowpages_us`.  A failed search-page fetch
yields no records; otherwise at most the first 15 listings are processed
(`listings[:15]`) with the 10-record break.  The search URL (built from
the category and location) lives at the fetch boundary and is absorbed
into the page input. -/
def scrape_yellowpages_us (category : String) (page : Option (List Listing)) : List Business :=
  match page with
  | none => []
  | some listings => collectLoop (processListing category) (listings.take 15) []

/-- Lines 241-320: `scrape_yellowpages_ca`; identical record logic to the
US variant (only the URL scheme and the BeautifulSoup selectors differ,
both at the absorbed boundaries). -/
def scrape_yellowpages_ca (category : String) (page : Option (List Listing)) : List Business :=
  match page with
  | none => []
  | some listings => collectLoop (processListing category) (listings.take 15) []

/-- Lines 322-395: `scrape_yelp`.  `is_canada` only selects the base URL
used to build the fetched search URL, hence does not appear in the body. -/
def scrape_yelp (category : String) (is_canada : Bool) (page : Option (List YelpListing)) :
    List Business :=
  match page with
  | none => []
  | some listings => collectLoop (processYelpListing category) (listings.take 15) []

/-! ## Deduplication (lines 418-427) -/

/-- The identity key of line 423:
`(business["Business Name"].lower(), business["Email"].lower())`. -/
def bkey (b : Business) : List Char × List Char :=
  (lowerChars b.name.data, lowerChars b.email.data)

/-- The loop of lines 422-426 with the `seen` set threaded explicitly
(membership in the list models membership in the Python set). -/
def dedupeGo (seen : List (List Char × List Char)) : List Business → List Business
  | [] => []
  | b :: rest =>
    if bkey b ∈ seen then dedupeGo seen rest
    else b :: dedupeGo (bkey b :: seen) rest

/-- Lines 419-427: keep the first record of each identity key, in input
order. -/
def dedupe (l : List Business) : List Business := dedupeGo [] l

/-! ## Orchestration (lines 397-462) and configuration (lines 60-89) -/

/-- One entry of the `REGIONS` dict (the state/province code is unused by
the harvesting logic and omitted). -/
structure RegionConfig where
  name : String
  country : String
  sources : List String
deriving DecidableEq

/-- Line 403: `is_canada = region_config['country'] == 'Canada'`. -/
def isCanada (cfg : RegionConfig) : Bool := cfg.country == "Canada"

/-- The fetched-and-parsed pages backing one category run: the
YellowPages search page and the Yelp search page (with each Yelp card
already carrying its business-page data). -/
structure CategoryEnv where
  ypPage : Option (List Listing)
  yelpPage : Option (List YelpListing)

/-- Lines 406-409: the first provider consulted is YellowPages, with the
Canadian variant for Canadian regions. -/
def firstProviderResults (category : String) (cfg : RegionConfig) (env : CategoryEnv) :
    List Business :=
  if isCanada cfg then scrape_yellowpages_ca category env.ypPage
  else scrape_yellowpages_us category env.ypPage

/-- Lines 411-416: `all_businesses` after the provider phase — Yelp is
queried exactly when the YellowPages results number fewer than 10. -/
def allCandidates (category : String) (cfg : RegionConfig) (env : CategoryEnv) : List Business :=
  let all_businesses := firstProviderResults category cfg env
  if all_businesses.length < 10 then
    all_businesses ++ scrape_yelp category (isCanada cfg) env.yelpPage
  else all_businesses

/-- Lines 397-433: `scrape_category_for_region` (the `region_key`
argument is only logged and is omitted): providers, dedup, and the
`unique_businesses[:10]` truncation. -/
def scrape_category_for_region (category : String) (cfg : RegionConfig) (env : CategoryEnv) :
    List Business :=
  (dedupe (allCandidates category cfg env)).take 10

/-- The guard of line 414, instrumented: is the second provider (Yelp)
queried for this category? -/
def yelpConsulted (category : String) (cfg : RegionConfig) (env : CategoryEnv) : Bool :=
  decide ((firstProviderResults category cfg env).length < 10)

/-- Line 167 / line 249: the host of the YellowPages search URL. -/
def yellowpages_base (ic : Bool) : String :=
  if ic then ("https://www.yellowpages.ca") else ("https://www.yellowpages.com")

/-- Line 326: `base_url = "https://www.yelp.ca" if is_canada else "https://www.yelp.com"`. -/
def yelp_base (ic : Bool) : String :=
  if ic then ("https://www.yelp.ca") else ("https://www.yelp.com")

/-- The providers `scrape_category_for_region` actually queries, by base
URL: YellowPages always, Yelp exactly under the guard of line 414. -/
def consultedSources (category : String) (cfg : RegionConfig) (env : CategoryEnv) : List String :=
  yellowpages_base (isCanada cfg) ::
    (if yelpConsulted category cfg env then [yelp_base (isCanada cfg)] else [])

/-- Lines 202-209: in the YellowPages extractors the external-website
fetch is attempted under the guard `if website:` alone. -/
def attemptsSiteFetch (l : Listing) : Bool := truthy l.website

/-- Lines 447-454: the marker row appended for an under-quota category. -/
def shortfallMarker (category : String) : Business :=
  { name := "Less than 10 records available for " ++ category
    email := ""
    phone := ""
    website := ""
    address := ""
    category := category }

/-- Lines 442-457: the rows contributed by one category — the scraped
records, plus the marker when they number fewer than 10. -/
def categoryBlock (cfg : RegionConfig) (env : CategoryEnv) (category : String) : List Business :=
  let businesses := scrape_category_for_region category cfg env
  if businesses.length < 10 then businesses ++ [shortfallMarker category] else businesses

/-- Lines 60-66: the sixteen fixed category labels. -/
def CATEGORIES : List String :=
  ["Clothing & Apparel", "Electronics & Gadgets", "Beauty & Personal Care",
   "Jewelry & Accessories", "Furniture & Décor", "Legal Services",
   "Accounting & Tax", "Consulting", "Real Estate Agency",
   "Financial Planning", "Hospitals & Clinics", "Fitness Centers",
   "Restaurants", "Cafes", "Catering Services", "Coaching Institutes"]

/-- Lines 435-462: `scrape_region` walks the categories in declaration
order and concatenates each category block (the inter-category delay is
wall-clock only); `env` supplies the pages fetched for each category. -/
def scrape_region (cfg : RegionConfig) (env : String → CategoryEnv) : List Business :=
  (CATEGORIES.map fun c => categoryBlock cfg (env c) c).flatten

/-- Lines 68-78: the Kansas region entry. -/
def kansasRegion : RegionConfig :=
  { name := "Kansas"
    country := "United States"
    sources := ["https://www.yellowpages.com", "https://www.yelp.com", "https://www.manta.com"] }

/-- Lines 79-88: the Nunavut region entry. -/
def nunavutRegion : RegionConfig :=
  { name := "Nunavut"
    country := "Canada"
    sources := ["https://www.yellowpages.ca", "https://www.yelp.ca", "https://www.canada411.ca"] }

/-- Lines 68-89: the `REGIONS` configuration dict. -/
def REGIONS : List (String × RegionConfig) :=
  [("kansas", kansasRegion), ("nunavut", nunavutRegion)]

/-! ## Lemmas about deduplication -/

theorem dedupeGo_sublist (l : List Business) :
    ∀ seen, (dedupeGo seen l).Sublist l := by
  induction l with
  | nil => intro seen; simp [dedupeGo]
  | cons a rest ih =>
    intro seen
    simp only [dedupeGo]
    by_cases h : bkey a ∈ seen
    · rw [if_pos h]; exact (ih seen).cons a
    · rw [if_neg h]; exact (ih (bkey a :: seen)).cons₂ a

theorem mem_dedupeGo (b : Business) :
    ∀ (l : List Business) (seen : List (List Char × List Char)),
      b ∈ dedupeGo seen l ↔
        bkey b ∉ seen ∧ ∃ l1 l2, l = l1 ++ b :: l2 ∧ ∀ c ∈ l1, bkey c ≠ bkey b := by
  intro l
  induction l with
  | nil =>
    intro seen
    constructor
    · intro h; simp [dedupeGo] at h
    · rintro ⟨-, l1, l2, hdec, -⟩
      exact absurd hdec.symm (by simp)
  | cons a rest ih =>
    intro seen
    simp only [dedupeGo]
    by_cases h : bkey a ∈ seen
    · rw [if_pos h, ih seen]
      constructor
      · rintro ⟨hnb, l1, l2, hdec, hl1⟩
        refine ⟨hnb, a :: l1, l2, by rw [hdec]; rfl, ?_⟩
        intro c hc
        rcases List.mem_cons.mp hc with rfl | hc2
        · intro hk; exact hnb (hk ▸ h)
        · exact hl1 c hc2
      · rintro ⟨hnb, l1, l2, hdec, hl1⟩
        cases l1 with
        | nil =>
          simp only [List.nil_append, List.cons.injEq] at hdec
          rcases hdec with ⟨rfl, rfl⟩
          exact absurd h hnb
        | cons a1 l1t =>
          simp only [List.cons_append, List.cons.injEq] at hdec
          rcases hdec with ⟨rfl, hrest⟩
          exact ⟨hnb, l1t, l2, hrest, fun c hc => hl1 c (List.mem_cons_of_mem _ hc)⟩
    · rw [if_neg h, List.mem_cons, ih (bkey a :: seen)]
      constructor
      · rintro (rfl | ⟨hnb, l1, l2, hdec, hl1⟩)
        · exact ⟨h, [], rest, rfl, by simp⟩
        · have hne : bkey b ≠ bkey a := by
            intro hk; exact hnb (by rw [hk]; exact List.mem_cons_self _ _)
          have hnb2 : bkey b ∉ seen := fun hk => hnb (List.mem_cons_of_mem _ hk)
          refine ⟨hnb2, a :: l1, l2, by rw [hdec]; rfl, ?_⟩
          intro c hc
          rcases List.mem_cons.mp hc with rfl | hc2
          · exact fun hk => hne hk.symm
          · exact hl1 c hc2
      · rintro ⟨hnb, l1, l2, hdec, hl1⟩
        cases l1 with
        | nil =>
          simp only [List.nil_append, List.cons.injEq] at hdec
          rcases hdec with ⟨rfl, rfl⟩
          exact Or.inl rfl
        | cons a1 l1t =>
          simp only [List.cons_append, List.cons.injEq] at hdec
          rcases hdec with ⟨rfl, hrest⟩
          refine Or.inr ⟨?_, l1t, l2, hrest, fun c hc => hl1 c (List.mem_cons_of_mem _ hc)⟩
          intro hk
          rcases List.mem_cons.mp hk with hk1 | hk2
          · exact hl1 a (List.mem_cons_self _ _) hk1.symm
          · exact hnb hk2

theorem dedupeGo_keys (l : List Business) :
    ∀ seen, ((dedupeGo seen l).map bkey).Nodup ∧
      ∀ k ∈ (dedupeGo seen l).map bkey, k ∉ seen := by
  induction l with
  | nil => intro seen; simp [dedupeGo]
  | cons a rest ih =>
    intro seen
    simp only [dedupeGo]
    by_cases h : bkey a ∈ seen
    · rw [if_pos h]; exact ih seen
    · rw [if_neg h]
      obtain ⟨ihn, ihf⟩ := ih (bkey a :: seen)
      constructor
      · rw [List.map_cons, List.nodup_cons]
        exact ⟨fun hk => (ihf _ hk) (List.mem_cons_self _ _), ihn⟩
      · intro k hk
        rw [List.map_cons, List.mem_cons] at hk
        rcases hk with rfl | hk2
        · exact h
        · exact fun hks => (ihf k hk2) (List.mem_cons_of_mem _ hks)

theorem dedupeGo_eq_self (l : List Business) :
    ∀ seen, (l.map bkey).Nodup → (∀ k ∈ l.map bkey, k ∉ seen) →
      dedupeGo seen l = l := by
  induction l with
  | nil => intro seen _ _; rfl
  | cons a rest ih =>
    intro seen hnd hf
    simp only [dedupeGo]
    have ha : bkey a ∉ seen := hf _ (by simp)
    rw [if_neg ha]
    congr 1
    rw [List.map_cons, List.nodup_cons] at hnd
    apply ih
    · exact hnd.2
    · intro k hk
      rw [List.mem_cons]
      rintro (rfl | hks)
      · exact hnd.1 hk
      · exact hf k (by simp [hk]) hks

theorem mem_of_mem_dedupe {b : Business} {l : List Business} (h : b ∈ dedupe l) : b ∈ l :=
  (dedupeGo_sublist l []).subset h

theorem dedupe_length_le (l : List Business) : (dedupe l).length ≤ l.length :=
  (dedupeGo_sublist l []).length_le

/-! ## Claims C7, C9, C3: the deduplication step -/

/-- Claim C7 (confirmed): deduplication keys each record by the
case-insensitive pair of name and email (`bkey`); the output is a sublist
of the input (relative first-seen order is preserved), its keys are
pairwise distinct (every later record with an already-seen key is
dropped), and a record is kept exactly when it occurs in the input at a
position before which its key never occurs (the first record bearing a
given key wins). -/
theorem c7_dedupe_first_wins_order (l : List Business) :
    (dedupe l).Sublist l ∧
    ((dedupe l).map bkey).Nodup ∧
    ∀ b : Business, b ∈ dedupe l ↔
      ∃ l1 l2, l = l1 ++ b :: l2 ∧ ∀ c ∈ l1, bkey c ≠ bkey b := by
  refine ⟨dedupeGo_sublist l [], (dedupeGo_keys l []).1, fun b => ?_⟩
  rw [dedupe, mem_dedupeGo]
  simp

/-- Witness for C7 at Scenario C of the specification: of two candidates
agreeing on name and email up to letter case, only the first-seen one is
retained. -/
theorem c7_dedupe_first_wins_order_witness :
    (⟨"Acme Co", "a@acme.com", "", "", "", "Cafes"⟩ : Business) ∈
      dedupe [⟨"Acme Co", "a@acme.com", "", "", "", "Cafes"⟩,
              ⟨"ACME CO", "A@ACME.COM", "", "", "", "Cafes"⟩] :=
  ((c7_dedupe_first_wins_order
      [⟨"Acme Co", "a@acme.com", "", "", "", "Cafes"⟩,
       ⟨"ACME CO", "A@ACME.COM", "", "", "", "Cafes"⟩]).2.2 _).mpr
    ⟨[], [⟨"ACME CO", "A@ACME.COM", "", "", "", "Cafes"⟩], rfl, by simp⟩

/-- Claim C9 (confirmed): deduplication is idempotent — applying it to
its own output returns that output unchanged. -/
theorem c9_dedupe_idempotent (l : List Business) :
    dedupe (dedupe l) = dedupe l := by
  rw [dedupe, dedupe]
  apply dedupeGo_eq_self
  · exact (dedupeGo_keys l []).1
  · intro k _; simp

/-- Counterexample to claim C3 as stated: the deduplication step of lines
418-429 performs no mandatory-field filtering, so a candidate with an
empty name and an empty email survives it. -/
theorem c3_counterexample :
    (⟨"", "", "", "", "", "Restaurants"⟩ : Business) ∈
      dedupe [⟨"", "", "", "", "", "Restaurants"⟩] ∧
    (⟨"", "", "", "", "", "Restaurants"⟩ : Business).name = "" ∧
    (⟨"", "", "", "", "", "Restaurants"⟩ : Business).email = "" := by
  refine ⟨?_, rfl, rfl⟩
  decide

/-- Claim C3 (corrected): the deduplication step removes only duplicate
keys, never records with empty mandatory fields — every output record is
an input record, and any candidate whose key is not already present
(including one with empty name or email) is kept.  The mandatory-field
rule is instead enforced inside each provider extractor. -/
theorem c3_dedupe_no_field_filter (l : List Business) (b : Business) :
    (b ∈ dedupe l → b ∈ l) ∧
    ((∀ c ∈ l, bkey c ≠ bkey b) → b ∈ dedupe (l ++ [b])) := by
  constructor
  · exact fun h => mem_of_mem_dedupe h
  · intro hl
    rw [dedupe, mem_dedupeGo]
    exact ⟨by simp, l, [], rfl, hl⟩

/-- Witness for C3 (corrected): a concrete candidate with empty name and
empty email passes through deduplication behind a valid record. -/
theorem c3_dedupe_no_field_filter_witness :
    (⟨"", "", "", "", "", "Cafes"⟩ : Business) ∈
      dedupe ([⟨"Good Cafe", "hi@cafe.com", "", "", "", "Cafes"⟩] ++
              [⟨"", "", "", "", "", "Cafes"⟩]) :=
  (c3_dedupe_no_field_filter
      [⟨"Good Cafe", "hi@cafe.com", "", "", "", "Cafes"⟩]
      ⟨"", "", "", "", "", "Cafes"⟩).2 (by decide)

/-! ## Lemmas about extraction -/

theorem matchEmailAt_ne_nil {cs out : List Char} (h : matchEmailAt cs = some out) :
    out ≠ [] := by
  simp only [matchEmailAt] at h
  split at h
  · exact absurd h (by simp)
  · split at h
    · split at h
      · rw [Option.some.injEq] at h
        subst h
        simp
      · exact absurd h (by simp)
    · exact absurd h (by simp)

theorem findEmail_ne_nil {out : List Char} :
    ∀ cs, findEmail cs = some out → out ≠ [] := by
  intro cs
  induction cs with
  | nil => intro h; exact absurd h (by simp [findEmail])
  | cons c rest ih =>
    intro h
    simp only [findEmail] at h
    split at h
    · rw [Option.some.injEq] at h
      subst h
      exact matchEmailAt_ne_nil (by assumption)
    · exact ih h

theorem findMailto_ne_nil {out : List Char} :
    ∀ cs, findMailto cs = some out → out ≠ [] := by
  intro cs
  induction cs with
  | nil => intro h; exact absurd h (by simp [findMailto])
  | cons c rest ih =>
    intro h
    simp only [findMailto] at h
    split at h
    · rw [Option.some.injEq] at h
      subst h
      rename_i heq
      simp only [matchMailtoAt] at heq
      split at heq
      · exact matchEmailAt_ne_nil heq
      · exact absurd heq (by simp)
    · exact ih h

theorem extract_email_ne_empty {t e : String}
    (h : extract_email_from_text t = some e) : e ≠ "" := by
  simp only [extract_email_from_text] at h
  split at h
  · exact absurd h (by simp)
  · split at h
    · rw [Option.some.injEq] at h
      subst h
      rename_i cs heq
      intro hc
      exact findEmail_ne_nil _ heq (by
        have := congrArg String.data hc
        simpa using this)
    · split at h
      · rw [Option.some.injEq] at h
        subst h
        rename_i cs heq
        intro hc
        exact findMailto_ne_nil _ heq (by
          have := congrArg String.data hc
          simpa using this)
      · exact absurd h (by simp)

theorem processListing_valid {category : String} {l : Listing} {b : Business}
    (h : processListing category l = some b) :
    b.name ≠ "" ∧ b.email ≠ "" ∧ b.category = category := by
  simp only [processListing] at h
  split at h
  · exact absurd h (by simp)
  · rename_i nt
    split at h
    · exact absurd h (by simp)
    · rename_i hname
      split at h
      · exact absurd h (by simp)
      · rename_i e heq
        split at h
        · exact absurd h (by simp)
        · rename_i hee
          rw [Option.some.injEq] at h
          subst h
          exact ⟨hname, hee, rfl⟩

theorem processYelpListing_valid {category : String} {l : YelpListing} {b : Business}
    (h : processYelpListing category l = some b) :
    b.name ≠ "" ∧ b.email ≠ "" ∧ b.category = category := by
  simp only [processYelpListing] at h
  split at h
  · exact absurd h (by simp)
  · rename_i nt
    split at h
    · exact absurd h (by simp)
    · rename_i hname
      split at h
      · split at h
        · exact absurd h (by simp)
        · split at h
          · exact absurd h (by simp)
          · rename_i e heq
            split at h
            · exact absurd h (by simp)
            · rename_i hee
              rw [Option.some.injEq] at h
              subst h
              exact ⟨hname, hee, rfl⟩
      · exact absurd h (by simp)

theorem mem_collectLoop {α : Type} (f : α → Option Business) (P : Business → Prop)
    (hf : ∀ x b, f x = some b → P b) :
    ∀ (ls : List α) (acc : List Business), (∀ b ∈ acc, P b) →
      ∀ b ∈ collectLoop f ls acc, P b := by
  intro ls
  induction ls with
  | nil => intro acc hacc b hb; exact hacc b hb
  | cons x rest ih =>
    intro acc hacc b hb
    cases hfx : f x with
    | none =>
      simp only [collectLoop, hfx] at hb
      exact ih acc hacc b hb
    | some b0 =>
      simp only [collectLoop, hfx] at hb
      have hacc2 : ∀ c ∈ acc ++ [b0], P c := by
        intro c hc
        rcases List.mem_append.mp hc with h | h
        · exact hacc c h
        · rw [List.mem_singleton] at h
          subst h
          exact hf x _ hfx
      by_cases hlen : 10 ≤ (acc ++ [b0]).length
      · rw [if_pos hlen] at hb
        exact hacc2 b hb
      · rw [if_neg hlen] at hb
        exact ih _ hacc2 b hb

theorem mem_scrape_yellowpages_us {category : String} {page : Option (List Listing)}
    {b : Business} (h : b ∈ scrape_yellowpages_us category page) :
    b.name ≠ "" ∧ b.email ≠ "" ∧ b.category = category := by
  simp only [scrape_yellowpages_us] at h
  split at h
  · exact absurd h (by simp)
  · exact mem_collectLoop _ _ (fun x bb hx => processListing_valid hx) _ _ (by simp) b h

theorem mem_scrape_yellowpages_ca {category : String} {page : Option (List Listing)}
    {b : Business} (h : b ∈ scrape_yellowpages_ca category page) :
    b.name ≠ "" ∧ b.email ≠ "" ∧ b.category = category := by
  simp only [scrape_yellowpages_ca] at h
  split at h
  · exact absurd h (by simp)
  · exact mem_collectLoop _ _ (fun x bb hx => processListing_valid hx) _ _ (by simp) b h

theorem mem_scrape_yelp {category : String} {ic : Bool} {page : Option (List YelpListing)}
    {b : Business} (h : b ∈ scrape_yelp category ic page) :
    b.name ≠ "" ∧ b.email ≠ "" ∧ b.category = category := by
  simp only [scrape_yelp] at h
  split at h
  · exact absurd h (by simp)
  · exact mem_collectLoop _ _ (fun x bb hx => processYelpListing_valid hx) _ _ (by simp) b h

theorem mem_scrape_category {category : String} {cfg : RegionConfig} {env : CategoryEnv}
    {b : Business} (h : b ∈ scrape_category_for_region category cfg env) :
    b.name ≠ "" ∧ b.email ≠ "" ∧ b.category = category := by
  simp only [scrape_category_for_region] at h
  have h1 : b ∈ dedupe (allCandidates category cfg env) := List.take_subset _ _ h
  have h2 : b ∈ allCandidates category cfg env := mem_of_mem_dedupe h1
  simp only [allCandidates] at h2
  split at h2
  · rcases List.mem_append.mp h2 with h3 | h3
    · simp only [firstProviderResults] at h3
      split at h3
      · exact mem_scrape_yellowpages_ca h3
      · exact mem_scrape_yellowpages_us h3
    · exact mem_scrape_yelp h3
  · simp only [firstProviderResults] at h2
    split at h2
    · exact mem_scrape_yellowpages_ca h2
    · exact mem_scrape_yellowpages_us h2

theorem mem_categoryBlock {cfg : RegionConfig} {env : CategoryEnv} {category : String}
    {b : Business} (h : b ∈ categoryBlock cfg env category) :
    b = shortfallMarker category ∨ b ∈ scrape_category_for_region category cfg env := by
  simp only [categoryBlock] at h
  split at h
  · rcases List.mem_append.mp h with h2 | h2
    · exact Or.inr h2
    · rw [List.mem_singleton] at h2
      exact Or.inl h2
  · exact Or.inr h

/-! ## Claims C1, C2, C10: block assembly and row invariants -/

/-- Claim C1 (confirmed): each category block holds at most 10 scraped
business records; when they number fewer than 10, the block is exactly
those records followed by one shortfall marker whose Business Name reads
"Less than 10 records available for" plus the category; when they number
10 (the only other possibility), no marker is appended. -/
theorem c1_block_structure (cfg : RegionConfig) (env : CategoryEnv) (category : String) :
    (scrape_category_for_region category cfg env).length ≤ 10 ∧
    ((scrape_category_for_region category cfg env).length < 10 →
      categoryBlock cfg env category =
        scrape_category_for_region category cfg env ++ [shortfallMarker category]) ∧
    (¬ (scrape_category_for_region category cfg env).length < 10 →
      categoryBlock cfg env category = scrape_category_for_region category cfg env) ∧
    (shortfallMarker category).name = "Less than 10 records available for " ++ category := by
  refine ⟨?_, ?_, ?_, rfl⟩
  · simp only [scrape_category_for_region]
    rw [List.length_take]
    exact min_le_left _ _
  · intro h
    simp only [categoryBlock]
    rw [if_pos h]
  · intro h
    simp only [categoryBlock]
    rw [if_neg h]

/-- An environment in which every fetch failed: each provider search page
is `None`. -/
def env0 : CategoryEnv := { ypPage := none, yelpPage := none }

/-- Witness for C1: with all fetches failing, the Legal Services block is
the empty record list followed by its shortfall marker. -/
theorem c1_block_structure_witness :
    categoryBlock kansasRegion env0 ("Legal Services") =
      scrape_category_for_region ("Legal Services") kansasRegion env0 ++
        [shortfallMarker ("Legal Services")] :=
  (c1_block_structure kansasRegion env0 ("Legal Services")).2.1 (by decide)

/-- Claim C2 (confirmed): every row of a region harvest is either the
shortfall marker of its category or a business record with non-empty
Business Name and non-empty Email, for every region configuration and
every fetch environment. -/
theorem c2_mandatory_fields (cfg : RegionConfig) (env : String → CategoryEnv) (b : Business)
    (hb : b ∈ scrape_region cfg env) :
    b = shortfallMarker b.category ∨ (b.name ≠ "" ∧ b.email ≠ "") := by
  simp only [scrape_region] at hb
  rw [List.mem_flatten] at hb
  obtain ⟨blk, hblk, hbin⟩ := hb
  rw [List.mem_map] at hblk
  obtain ⟨cat, hcat, rfl⟩ := hblk
  rcases mem_categoryBlock hbin with rfl | hsc
  · exact Or.inl rfl
  · obtain ⟨h1, h2, -⟩ := mem_scrape_category hsc
    exact Or.inr ⟨h1, h2⟩

/-- Witness for C2 at a concrete harvest row (the Cafes marker row of the
all-fetches-failed Kansas run). -/
theorem c2_mandatory_fields_witness :
    shortfallMarker ("Cafes") = shortfallMarker (shortfallMarker ("Cafes")).category ∨
      ((shortfallMarker ("Cafes")).name ≠ "" ∧ (shortfallMarker ("Cafes")).email ≠ "") :=
  c2_mandatory_fields kansasRegion (fun _ => env0) (shortfallMarker ("Cafes")) (by decide)

/-- Claim C10 (confirmed): every row emitted for a category — scraped
records and the shortfall marker alike — carries that category in its
Category field. -/
theorem c10_category_field (cfg : RegionConfig) (env : CategoryEnv) (category : String)
    (b : Business) (hb : b ∈ categoryBlock cfg env category) :
    b.category = category := by
  rcases mem_categoryBlock hb with rfl | hsc
  · rfl
  · exact (mem_scrape_category hsc).2.2

/-- Witness for C10 at the concrete Cafes marker row. -/
theorem c10_category_field_witness :
    (shortfallMarker ("Cafes")).category = "Cafes" :=
  c10_category_field kansasRegion env0 ("Cafes") (shortfallMarker ("Cafes")) (by decide)

/-! ## Lemmas about the provider escalation -/

theorem firstProvider_dep (cfg : RegionConfig) (category : String) {env env2 : CategoryEnv}
    (h : env.ypPage = env2.ypPage) :
    firstProviderResults category cfg env = firstProviderResults category cfg env2 := by
  simp only [firstProviderResults, h]

theorem scrape_category_indep (cfg : RegionConfig) (category : String) {env env2 : CategoryEnv}
    (hyp : env.ypPage = env2.ypPage)
    (h10 : 10 ≤ (firstProviderResults category cfg env).length) :
    scrape_category_for_region category cfg env =
      scrape_category_for_region category cfg env2 := by
  have hfp := firstProvider_dep cfg category hyp
  simp only [scrape_category_for_region, allCandidates]
  rw [← hfp, if_neg (by omega), if_neg (by omega)]

/-! ## Claims C5, C6, C8: provider fallback policy -/

/-- A YellowPages listing with no website and no phone or address
elements, carrying an email in its own text. -/
def mkListing (nm : String) (txt : String) : Listing :=
  { nameText := some nm
    phoneText := none
    website := none
    addressText := none
    listingText := txt
    siteHtml := none }

/-- Ten listings whose tenth is a letter-case variant of the first, so
the raw extraction yields 10 records deduplicating to 9. -/
def dupPage : List Listing :=
  [mkListing ("Biz1") ("biz1@mail.com"), mkListing ("Biz2") ("biz2@mail.com"),
   mkListing ("Biz3") ("biz3@mail.com"), mkListing ("Biz4") ("biz4@mail.com"),
   mkListing ("Biz5") ("biz5@mail.com"), mkListing ("Biz6") ("biz6@mail.com"),
   mkListing ("Biz7") ("biz7@mail.com"), mkListing ("Biz8") ("biz8@mail.com"),
   mkListing ("Biz9") ("biz9@mail.com"), mkListing ("BIZ1") ("BIZ1@MAIL.COM")]

/-- Environment whose YellowPages page is `dupPage` and whose Yelp fetch
fails. -/
def env5 : CategoryEnv := { ypPage := some dupPage, yelpPage := none }

/-- Same YellowPages page as `env5` but a different Yelp page. -/
def env5b : CategoryEnv := { ypPage := env5.ypPage, yelpPage := some [] }

/-- Counterexample to claim C5 as stated: the first provider returns 10
raw candidates that deduplicate to only 9 unique records, yet the second
provider is not consulted — the guard of line 414 reads the raw count,
not the deduplicated count. -/
theorem c5_counterexample :
    (firstProviderResults ("Restaurants") kansasRegion env5).length = 10 ∧
    (dedupe (firstProviderResults ("Restaurants") kansasRegion env5)).length < 10 ∧
    yelpConsulted ("Restaurants") kansasRegion env5 = false := by
  decide

/-- Claim C5 (corrected): the second provider is consulted exactly when
the raw (pre-deduplication) count of the first provider candidates is
below 10 — when that raw count reaches 10 the category result is
independent of the second provider data, and when it is below 10 the
result is the deduplicated, truncated concatenation of both provider
outputs. -/
theorem c5_raw_count_decides (cfg : RegionConfig) (env env2 : CategoryEnv) (category : String)
    (hyp : env.ypPage = env2.ypPage) :
    (10 ≤ (firstProviderResults category cfg env).length →
      scrape_category_for_region category cfg env =
        scrape_category_for_region category cfg env2) ∧
    ((firstProviderResults category cfg env).length < 10 →
      scrape_category_for_region category cfg env =
        (dedupe (firstProviderResults category cfg env ++
          scrape_yelp category (isCanada cfg) env.yelpPage)).take 10) := by
  constructor
  · intro h10
    exact scrape_category_indep cfg category hyp h10
  · intro hlt
    simp only [scrape_category_for_region, allCandidates]
    rw [if_pos hlt]

/-- Witness for C5 (corrected): with 10 raw first-provider candidates the
result ignores the Yelp page entirely. -/
theorem c5_raw_count_decides_witness :
    scrape_category_for_region ("Restaurants") kansasRegion env5 =
      scrape_category_for_region ("Restaurants") kansasRegion env5b :=
  (c5_raw_count_decides kansasRegion env5 env5b ("Restaurants") rfl).1 (by decide)

/-- Counterexample to claim C6 as stated: in a run where quota is unmet
(here every fetch fails), the third configured source of Kansas is in the
configuration yet is never consulted before the shortfall is declared. -/
theorem c6_counterexample :
    (scrape_category_for_region ("Restaurants") kansasRegion env0).length < 10 ∧
    "https://www.manta.com" ∈ kansasRegion.sources ∧
    "https://www.manta.com" ∉ consultedSources ("Restaurants") kansasRegion env0 := by
  decide

/-- Claim C6 (corrected): only the first two configured sources are ever
consulted — the third (manta.com for Kansas, canada411.ca for Nunavut) is
never queried under any environment; when the first provider yields fewer
than 10 raw records (so quota can remain unmet), exactly the first two
sources are consulted before the category is declared exhausted. -/
theorem c6_third_source_never_used (category : String) (envK envN : CategoryEnv) :
    "https://www.manta.com" ∉ consultedSources category kansasRegion envK ∧
    "https://www.canada411.ca" ∉ consultedSources category nunavutRegion envN ∧
    ((firstProviderResults category kansasRegion envK).length < 10 →
      consultedSources category kansasRegion envK =
        ["https://www.yellowpages.com", "https://www.yelp.com"]) ∧
    ((firstProviderResults category nunavutRegion envN).length < 10 →
      consultedSources category nunavutRegion envN =
        ["https://www.yellowpages.ca", "https://www.yelp.ca"]) := by
  refine ⟨?_, ?_, ?_, ?_⟩
  · simp only [consultedSources]
    split
    · decide
    · decide
  · simp only [consultedSources]
    split
    · decide
    · decide
  · intro h
    simp only [consultedSources]
    rw [if_pos (show yelpConsulted category kansasRegion envK = true by
      simp only [yelpConsulted, decide_eq_true_eq]; exact h)]
    decide
  · intro h
    simp only [consultedSources]
    rw [if_pos (show yelpConsulted category nunavutRegion envN = true by
      simp only [yelpConsulted, decide_eq_true_eq]; exact h)]
    decide

/-- Witness for C6 (corrected): the all-fetches-failed Kansas run
consults exactly YellowPages and Yelp. -/
theorem c6_third_source_never_used_witness :
    consultedSources ("Restaurants") kansasRegion env0 =
      ["https://www.yellowpages.com", "https://www.yelp.com"] :=
  (c6_third_source_never_used ("Restaurants") env0 env0).2.2.1 (by decide)

/-- Ten listings with pairwise distinct identity keys. -/
def fullPage : List Listing :=
  [mkListing ("Shop1") ("a1@shop.com"), mkListing ("Shop2") ("a2@shop.com"),
   mkListing ("Shop3") ("a3@shop.com"), mkListing ("Shop4") ("a4@shop.com"),
   mkListing ("Shop5") ("a5@shop.com"), mkListing ("Shop6") ("a6@shop.com"),
   mkListing ("Shop7") ("a7@shop.com"), mkListing ("Shop8") ("a8@shop.com"),
   mkListing ("Shop9") ("a9@shop.com"), mkListing ("Shop10") ("a10@shop.com")]

/-- Environment whose YellowPages page is `fullPage` and whose Yelp fetch
fails. -/
def env8 : CategoryEnv := { ypPage := some fullPage, yelpPage := none }

/-- Same YellowPages page as `env8` but a different Yelp page. -/
def env8b : CategoryEnv := { ypPage := env8.ypPage, yelpPage := some [] }

/-- Claim C8 (confirmed): when the first provider alone yields at least
10 unique valid records, the second provider is not queried and the
category result is independent of the second provider data. -/
theorem c8_early_exit (cfg : RegionConfig) (env env2 : CategoryEnv) (category : String)
    (hyp : env.ypPage = env2.ypPage)
    (hq : 10 ≤ (dedupe (firstProviderResults category cfg env)).length) :
    yelpConsulted category cfg env = false ∧
    scrape_category_for_region category cfg env =
      scrape_category_for_region category cfg env2 := by
  have hlen : 10 ≤ (firstProviderResults category cfg env).length :=
    le_trans hq (dedupe_length_le _)
  constructor
  · simp only [yelpConsulted, decide_eq_false_iff_not]
    omega
  · exact scrape_category_indep cfg category hyp hlen

/-- Witness for C8: ten key-distinct first-provider records suppress the
Yelp query and make the result independent of the Yelp page. -/
theorem c8_early_exit_witness :
    yelpConsulted ("Cafes") kansasRegion env8 = false ∧
    scrape_category_for_region ("Cafes") kansasRegion env8 =
      scrape_category_for_region ("Cafes") kansasRegion env8b :=
  c8_early_exit kansasRegion env8 env8b ("Cafes") rfl (by decide)

/-! ## Claim C4: email resolution order -/

/-- A listing that links a website whose fetched content carries one
email, while the listing text itself carries a different email. -/
def siteListing : Listing :=
  { nameText := some ("Acme")
    phoneText := none
    website := some ("http://acme.example")
    addressText := none
    listingText := "write to acme@acme.com"
    siteHtml := some ("info: sales@acme.example") }

/-- The record the extractor produces for `siteListing`. -/
def siteBiz : Business :=
  { name := "Acme"
    email := "sales@acme.example"
    phone := ""
    website := "http://acme.example"
    address := ""
    category := "Cafes" }

/-- Counterexample to claim C4 as stated: the listing text already
contains an email, yet the external-website fetch is still attempted and
its email is the one kept — the claimed only-if-no-listing-text-email
condition for the fetch does not hold. -/
theorem c4_counterexample :
    attemptsSiteFetch siteListing = true ∧
    extract_email_from_text siteListing.listingText = some ("acme@acme.com") ∧
    processListing ("Cafes") siteListing = some siteBiz ∧
    siteBiz.email = "sales@acme.example" := by
  decide

/-- Destructuring of a successful listing extraction: the produced email
is non-empty and solves the email-resolution equation of lines 201-218
(website email when truthy, listing-text email otherwise). -/
theorem processListing_cases (category : String) (l : Listing) (b : Business)
    (hb : processListing category l = some b) :
    b.email ≠ "" ∧
    (if truthy (if truthy l.website then
          match l.siteHtml with
          | some h => extract_email_from_text h
          | none => none
        else none) then
      (if truthy l.website then
          match l.siteHtml with
          | some h => extract_email_from_text h
          | none => none
        else none)
      else extract_email_from_text l.listingText) = some b.email := by
  simp only [processListing] at hb
  split at hb
  · exact absurd hb (by simp)
  · split at hb
    · exact absurd hb (by simp)
    · split at hb
      · exact absurd hb (by simp)
      · rename_i e heq
        split at hb
        · exact absurd hb (by simp)
        · rename_i hee
          rw [Option.some.injEq] at hb
          subst hb
          exact ⟨hee, heq⟩

/-- Claim C4 (corrected): the order is the reverse of the claimed one —
whenever the listing links a (truthy) website, that website is fetched
and its content searched first, its email winning over anything in the
listing text; the listing own text is searched only when there is no
truthy website link or the website route produced no email. -/
theorem c4_website_fetched_first (category : String) (l : Listing) (b : Business)
    (hb : processListing category l = some b) :
    (∀ h e, truthy l.website = true → l.siteHtml = some h →
      extract_email_from_text h = some e → b.email = e) ∧
    (truthy l.website = false →
      extract_email_from_text l.listingText = some b.email) ∧
    (∀ h, truthy l.website = true → l.siteHtml = some h →
      extract_email_from_text h = none →
      extract_email_from_text l.listingText = some b.email) := by
  obtain ⟨hbe, hE⟩ := processListing_cases category l b hb
  refine ⟨?_, ?_, ?_⟩
  · intro h e hw hh he
    have hne : e ≠ "" := extract_email_ne_empty he
    have hEFS : (if truthy l.website then
        match l.siteHtml with
        | some h2 => extract_email_from_text h2
        | none => none
      else none) = some e := by
      rw [if_pos hw, hh]
      exact he
    rw [hEFS] at hE
    have hte : truthy (some e) = true := by
      simp only [truthy, bne_iff_ne, ne_eq]
      exact hne
    rw [if_pos hte] at hE
    exact ((Option.some.injEq _ _).mp hE).symm
  · intro hw
    have hEFS : (if truthy l.website then
        match l.siteHtml with
        | some h2 => extract_email_from_text h2
        | none => none
      else none) = none := if_neg (by simp [hw])
    rw [hEFS] at hE
    rw [if_neg (by simp [truthy])] at hE
    exact hE
  · intro h hw hh he
    have hEFS : (if truthy l.website then
        match l.siteHtml with
        | some h2 => extract_email_from_text h2
        | none => none
      else none) = none := by
      rw [if_pos hw, hh]
      exact he
    rw [hEFS] at hE
    rw [if_neg (by simp [truthy])] at hE
    exact hE

/-- Witness for C4 (corrected) on `siteListing`: the kept email is the
one found on the fetched website, not the one in the listing text. -/
theorem c4_website_fetched_first_witness :
    siteBiz.email = "sales@acme.example" :=
  (c4_website_fetched_first ("Cafes") siteListing siteBiz (by decide)).1
    ("info: sales@acme.example") ("sales@acme.example") rfl rfl (by decide)
